import Mathlib

/-!
Verification of the deterministic health-scoring heuristic of the
Workflow Doctor repository (`src/src/WorkflowDoctor.tsx`, `handleAnalyze`).

The scoring portion of `handleAnalyze` is a pure computation over
`workflow.nodes`: starting from a base score of 100 it conditionally
subtracts penalties (missing error handling, size, trigger hygiene,
heavy code nodes, default naming) and finally clamps the result into
[0, 100] with `Math.max(0, Math.min(100, score))`.  The definitions
below embed that computation; JavaScript strings become Lean `String`,
`Array.prototype.includes`/`some`/`filter` become list recursions, and
`toLowerCase` is embedded for the ASCII range, which covers every
needle the code matches against.
-/

namespace WorkflowDoctor

/-- A workflow node as declared by `interface Node` in the source:
a display `name`, a `type` identifier and a layout `position`
(the position is never read by the scoring code). -/
structure Node where
  name : String
  type : String
  position : Int × Int

/-- A workflow as declared by `interface Workflow` in the source:
a `name`, the ordered `nodes` and an opaque `connections` record. -/
structure Workflow where
  name : String
  nodes : List Node
  connections : List (String × String)

/-- Whether `pre` is an initial segment of `l` (character lists). -/
def leadsList : List Char → List Char → Bool
  | [], _ => true
  | _ :: _, [] => false
  | a :: as, b :: bs => a == b && leadsList as bs

/-- Whether `sub` occurs as a contiguous segment of `l`
(the semantics of JavaScript `String.prototype.includes`). -/
def hasSegment (sub : List Char) : List Char → Bool
  | [] => sub.isEmpty
  | c :: cs => leadsList sub (c :: cs) || hasSegment sub cs

/-- `hay.includes(sub)` of the source, over Lean strings. -/
def strIncludes (hay sub : String) : Bool :=
  hasSegment sub.data hay.data

/-- ASCII lowering of one character, the fragment of JavaScript
`toLowerCase` relevant to the needles ("error", "trigger", "webhook")
the source matches after lowering. -/
def lowerChar (c : Char) : Char :=
  if 65 ≤ c.toNat ∧ c.toNat ≤ 90 then Char.ofNat (c.toNat + 32) else c

/-- `s.toLowerCase()` of the source, over Lean strings. -/
def lowerStr (s : String) : String :=
  ⟨s.data.map lowerChar⟩

/-- Whether the JavaScript regular expression `/Node \d+/` matches at the
head of `xs`: the literal characters `N`, `o`, `d`, `e`, a space, then at
least one decimal digit. -/
def defaultNameAt (xs : List Char) : Bool :=
  match xs with
  | a :: b :: c :: d :: e :: f :: _ =>
      a == 'N' && b == 'o' && c == 'd' && d == 'e' && e == ' ' && f.isDigit
  | _ => false

/-- Whether `/Node \d+/` matches anywhere in `xs` (JavaScript
`String.prototype.match` against an unanchored pattern succeeds when the
pattern matches at some position). -/
def hasDefaultName : List Char → Bool
  | [] => false
  | c :: cs => defaultNameAt (c :: cs) || hasDefaultName cs

/-- `n.name.match(/Node \d+/)` of the source is non-null exactly when this
predicate holds of the name. -/
def nameMatchesDefault (s : String) : Bool :=
  hasDefaultName s.data

/-- Rule 1 predicate of the source:
`n.type.toLowerCase().includes("error") || n.type.includes("catch")` —
the error needle is matched case-insensitively, the catch needle
case-sensitively. -/
def isErrorNode (n : Node) : Bool :=
  strIncludes (lowerStr n.type) "error" || strIncludes n.type "catch"

/-- Rule 3 predicate of the source:
`n.type.toLowerCase().includes("trigger") || n.type.toLowerCase().includes("webhook")`. -/
def isTriggerNode (n : Node) : Bool :=
  strIncludes (lowerStr n.type) "trigger" || strIncludes (lowerStr n.type) "webhook"

/-- Rule 4 predicate of the source:
`n.type.includes("Code") || n.type.includes("Function")` — both
case-sensitive. -/
def isHeavyNode (n : Node) : Bool :=
  strIncludes n.type "Code" || strIncludes n.type "Function"

/-- Rule 5 predicate of the source: `n.name.match(/Node \d+/)` is truthy. -/
def isDefaultNamed (n : Node) : Bool :=
  nameMatchesDefault n.name

/-- `nodes.some(...)` of rule 1. -/
def hasErrorNodes (nodes : List Node) : Bool :=
  nodes.any isErrorNode

/-- `triggers.length` of rule 3: the number of trigger/webhook nodes. -/
def triggerCount (nodes : List Node) : Nat :=
  (nodes.filter isTriggerNode).length

/-- `heavyNodes.length` of rule 4: the number of Code/Function nodes. -/
def heavyCount (nodes : List Node) : Nat :=
  (nodes.filter isHeavyNode).length

/-- `defaultNamed.length` of rule 5: the number of default-named nodes. -/
def defaultNamedCount (nodes : List Node) : Nat :=
  (nodes.filter isDefaultNamed).length

/-- The deterministic health-score computation of `handleAnalyze`:
`score = 100`, the five rule blocks applied in source order, then
`Math.max(0, Math.min(100, score))`. -/
def healthScore (w : Workflow) : Int :=
  let nodes := w.nodes
  let s0 : Int := 100
  let s1 := if hasErrorNodes nodes = false ∧ nodes.length > 5 then s0 - 20 else s0
  let s2 := if nodes.length > 10 then s1 - 5 else s1
  let s3 := if nodes.length > 20 then s2 - 10 else s2
  let s4 := if triggerCount nodes = 0 then s3 - 10 else s3
  let s5 := if triggerCount nodes > 2 then s4 - 5 else s4
  let s6 := if heavyCount nodes > 3 then s5 - 5 else s5
  let s7 := if defaultNamedCount nodes > 0
    then s6 - (defaultNamedCount nodes : Int) * 2 else s6
  max 0 (min 100 s7)

/-- The delta of the missing-error-handling rule (20 when it fires, else 0). -/
def errorDelta (w : Workflow) : Int :=
  if hasErrorNodes w.nodes = false ∧ w.nodes.length > 5 then 20 else 0

/-- The delta of the moderate-size rule. -/
def sizeDelta10 (w : Workflow) : Int :=
  if w.nodes.length > 10 then 5 else 0

/-- The delta of the large-size rule. -/
def sizeDelta20 (w : Workflow) : Int :=
  if w.nodes.length > 20 then 10 else 0

/-- The delta of the no-trigger rule. -/
def noTriggerDelta (w : Workflow) : Int :=
  if triggerCount w.nodes = 0 then 10 else 0

/-- The delta of the too-many-triggers rule. -/
def manyTriggersDelta (w : Workflow) : Int :=
  if triggerCount w.nodes > 2 then 5 else 0

/-- The delta of the excess-custom-code rule. -/
def heavyDelta (w : Workflow) : Int :=
  if heavyCount w.nodes > 3 then 5 else 0

/-- The delta of the default-naming rule (2 per default-named node). -/
def namingDelta (w : Workflow) : Int :=
  if defaultNamedCount w.nodes > 0 then (defaultNamedCount w.nodes : Int) * 2 else 0

/-- The sum of all rule deltas of the source, as magnitudes of the
subtractions performed on the running score. -/
def sumDeltas (w : Workflow) : Int :=
  errorDelta w + sizeDelta10 w + sizeDelta20 w + noTriggerDelta w
    + manyTriggersDelta w + heavyDelta w + namingDelta w

set_option maxHeartbeats 1600000 in
/-- The sequential subtractions of `healthScore` equal the clamp of
`100` minus the sum of the individual rule deltas. -/
theorem healthScore_eq_clamp (w : Workflow) :
    healthScore w = max 0 (min 100 (100 - sumDeltas w)) := by
  simp only [healthScore, sumDeltas, errorDelta, sizeDelta10, sizeDelta20,
    noTriggerDelta, manyTriggersDelta, heavyDelta, namingDelta]
  split_ifs <;> omega

/-- A finding as the spec describes one: a rule name, its point delta and a
detail string.  The source never constructs such a value. -/
structure Finding where
  rule : String
  delta : Int
  detail : String

/-- The findings `handleAnalyze` delivers together with the score: the source
stores the clamped number via `setHealthScore` and nothing else — no finding
value of any kind is constructed anywhere in `handleAnalyze`, so the sequence
of findings delivered alongside the score is empty for every workflow. -/
def deliveredFindings (_ : Workflow) : List Finding := []


/-- C1 counterexample: on the empty workflow the no-trigger rule fires
(the deltas sum to 10 and the stored score is 90), yet the findings
delivered alongside the score are empty — the score is a bare number. -/
theorem C1_counterexample :
    sumDeltas ⟨"w", [], []⟩ = 10 ∧ deliveredFindings ⟨"w", [], []⟩ = []
      ∧ healthScore ⟨"w", [], []⟩ = 90 :=
  ⟨by decide, rfl, by decide⟩

/-- C1 (amended): for every workflow the scoring operation produces only an
integer score, always in [0, 100]; no findings accompany it. -/
theorem C1_score_without_findings (w : Workflow) :
    0 ≤ healthScore w ∧ healthScore w ≤ 100 ∧ deliveredFindings w = [] := by
  have h := healthScore_eq_clamp w
  exact ⟨by omega, by omega, rfl⟩

/-- C5: the final score equals `clamp(100 − sum(deltas), 0, 100)`, clamped
once after all rules; a delta sum past 100 yields exactly 0 and an empty
delta sum yields exactly 100. -/
theorem C5_clamp_once (w : Workflow) :
    healthScore w = max 0 (min 100 (100 - sumDeltas w))
      ∧ (100 < sumDeltas w → healthScore w = 0)
      ∧ (sumDeltas w = 0 → healthScore w = 100) := by
  have h := healthScore_eq_clamp w
  exact ⟨h, fun hgt => by omega, fun h0 => by omega⟩

/-- C2 counterexample: a 6-node workflow whose only error-ish node has type
`"Catch"`.  Lowered, that type does contain `"catch"`, so under the claimed
case-insensitive rule the −20 penalty would be suppressed and the score
would be 90; the source checks `"catch"` case-sensitively, the penalty
fires (`errorDelta = 20`) and the score is 70. -/
theorem C2_counterexample :
    strIncludes (lowerStr "Catch") "catch" = true
      ∧ errorDelta ⟨"w", ⟨"a", "Catch", (0, 0)⟩ :: List.replicate 5 ⟨"b", "x", (0, 0)⟩, []⟩ = 20
      ∧ healthScore ⟨"w", ⟨"a", "Catch", (0, 0)⟩ :: List.replicate 5 ⟨"b", "x", (0, 0)⟩, []⟩ = 70 := by
  decide

/-- C2 (amended): for every workflow with more than 5 nodes, the −20 penalty
fires if and only if no node type contains `"error"` case-insensitively and
no node type contains `"catch"` as a case-sensitive substring; a type
containing only capitalised `"Catch"` does not suppress the penalty. -/
theorem C2_error_rule (w : Workflow) (hlen : w.nodes.length > 5) :
    errorDelta w = 20 ↔
      ∀ n ∈ w.nodes, strIncludes (lowerStr n.type) "error" = false
        ∧ strIncludes n.type "catch" = false := by
  have hchar : hasErrorNodes w.nodes = false ↔
      ∀ n ∈ w.nodes, strIncludes (lowerStr n.type) "error" = false
        ∧ strIncludes n.type "catch" = false := by
    simp [hasErrorNodes, isErrorNode, List.any_eq_true]
  simp only [errorDelta]
  split_ifs with h
  · exact iff_of_true rfl (hchar.mp h.1)
  · have hne : ¬ hasErrorNodes w.nodes = false := fun hf => h ⟨hf, hlen⟩
    constructor
    · intro h0
      exact absurd h0 (by decide)
    · intro hall
      exact absurd (hchar.mpr hall) hne

/-- C2 witness: a 6-node workflow of plain `"x"` types satisfies the
amended biconditional, so the −20 penalty fires. -/
theorem C2_witness :
    errorDelta ⟨"w", List.replicate 6 ⟨"a", "x", (0, 0)⟩, []⟩ = 20 :=
  (C2_error_rule ⟨"w", List.replicate 6 ⟨"a", "x", (0, 0)⟩, []⟩ (by decide)).mpr
    (by decide)

/-- C3 counterexample: the claim says a node named `"Node1"` incurs −2, which
on a one-node workflow would leave a score of 88; the source pattern
`/Node \d+/` requires a space, `"Node1"` does not match, and the score of
that workflow is 90 (only the no-trigger penalty). -/
theorem C3_counterexample :
    nameMatchesDefault "Node1" = false
      ∧ healthScore ⟨"w", [⟨"Node1", "x", (0, 0)⟩], []⟩ = 90 := by
  decide

/-- C3 (amended): the default-naming rule subtracts exactly 2 per node whose
name matches `"Node"` followed by a space and one or more digits, with no
cap on this term — `"Node 7"` matches, `"Node1"` does not, and 60 matching
nodes accumulate a delta of 120, driving the final score to the clamp at 0. -/
theorem C3_two_per_match (w : Workflow) :
    namingDelta w = 2 * (defaultNamedCount w.nodes : Int)
      ∧ nameMatchesDefault "Node 7" = true
      ∧ nameMatchesDefault "Node1" = false
      ∧ namingDelta ⟨"w", List.replicate 60 ⟨"Node 1", "x", (0, 0)⟩, []⟩ = 120
      ∧ healthScore ⟨"w", List.replicate 60 ⟨"Node 1", "x", (0, 0)⟩, []⟩ = 0 := by
  refine ⟨?_, by decide, by decide, by decide, by decide⟩
  simp only [namingDelta]
  split_ifs <;> omega

/-- Appending a node that fails a filter predicate leaves the filter count
unchanged. -/
lemma length_filter_append_neg (p : Node → Bool) (l : List Node) (n : Node)
    (h : p n = false) :
    ((l ++ [n]).filter p).length = (l.filter p).length := by
  simp [List.filter_append, h]

/-- Appending a node that passes a filter predicate raises the filter count
by one. -/
lemma length_filter_append_pos (p : Node → Bool) (l : List Node) (n : Node)
    (h : p n = true) :
    ((l ++ [n]).filter p).length = (l.filter p).length + 1 := by
  simp [List.filter_append, h]

/-- C4 counterexample: the empty workflow scores 90; appending the
default-named node `"Node 1"` of type `"webhook"` removes the no-trigger
penalty while adding only −2, raising the score to 98 — adding a
default-named node increased the score. -/
theorem C4_counterexample :
    nameMatchesDefault "Node 1" = true
      ∧ healthScore ⟨"w", [], []⟩
          < healthScore ⟨"w", [⟨"Node 1", "webhook", (0, 0)⟩], []⟩ := by
  decide

/-- C4 (amended): adding one default-named node never increases the score
provided its type does not count as error handling (no case-insensitive
`"error"`, no case-sensitive `"catch"`) and is not a trigger/webhook type;
a Code/Function type is fine, that rule being penalty-only. For an
arbitrary type the score can increase. -/
theorem C4_monotone (w : Workflow) (n : Node)
    (he : isErrorNode n = false) (ht : isTriggerNode n = false) :
    healthScore ⟨w.name, w.nodes ++ [n], w.connections⟩ ≤ healthScore w := by
  have hE : hasErrorNodes (w.nodes ++ [n]) = hasErrorNodes w.nodes := by
    simp [hasErrorNodes, List.any_append, he]
  have hT : triggerCount (w.nodes ++ [n]) = triggerCount w.nodes :=
    length_filter_append_neg _ _ _ ht
  have hH : heavyCount w.nodes ≤ heavyCount (w.nodes ++ [n]) := by
    by_cases hh : isHeavyNode n = true
    · rw [show heavyCount (w.nodes ++ [n])
          = heavyCount w.nodes + 1 from length_filter_append_pos _ _ _ hh]
      omega
    · rw [show heavyCount (w.nodes ++ [n])
          = heavyCount w.nodes from
          length_filter_append_neg _ _ _ (by simpa using hh)]
  have hD : defaultNamedCount w.nodes ≤ defaultNamedCount (w.nodes ++ [n]) := by
    by_cases hd : isDefaultNamed n = true
    · rw [show defaultNamedCount (w.nodes ++ [n])
          = defaultNamedCount w.nodes + 1 from length_filter_append_pos _ _ _ hd]
      omega
    · rw [show defaultNamedCount (w.nodes ++ [n])
          = defaultNamedCount w.nodes from
          length_filter_append_neg _ _ _ (by simpa using hd)]
  have hL : (w.nodes ++ [n]).length = w.nodes.length + 1 := by simp
  set w' : Workflow := ⟨w.name, w.nodes ++ [n], w.connections⟩ with hw'
  have hnodes : w'.nodes = w.nodes ++ [n] := rfl
  have h1 : errorDelta w ≤ errorDelta w' := by
    by_cases hbe : hasErrorNodes w.nodes = false
    · simp only [errorDelta, hnodes, hE, hL, hbe, true_and]
      split_ifs <;> omega
    · simp only [errorDelta, hnodes, hE, hL]
      rw [if_neg (fun hc => hbe hc.1), if_neg (fun hc => hbe hc.1)]
  have h2 : sizeDelta10 w ≤ sizeDelta10 w' := by
    simp only [sizeDelta10, hnodes, hL]
    split_ifs <;> omega
  have h3 : sizeDelta20 w ≤ sizeDelta20 w' := by
    simp only [sizeDelta20, hnodes, hL]
    split_ifs <;> omega
  have h4 : noTriggerDelta w = noTriggerDelta w' := by
    simp only [noTriggerDelta, hnodes, hT]
  have h5 : manyTriggersDelta w = manyTriggersDelta w' := by
    simp only [manyTriggersDelta, hnodes, hT]
  have h6 : heavyDelta w ≤ heavyDelta w' := by
    simp only [heavyDelta, hnodes]
    have := hH
    split_ifs <;> omega
  have h7 : namingDelta w ≤ namingDelta w' := by
    simp only [namingDelta, hnodes]
    have := hD
    split_ifs <;> omega
  have hsum : sumDeltas w ≤ sumDeltas w' := by
    simp only [sumDeltas]
    omega
  rw [healthScore_eq_clamp, healthScore_eq_clamp]
  omega

/-- C4 witness: appending the default-named node `"Node 1"` of the heavy
type `"Code"` to the empty workflow does not raise the score (88 ≤ 90). -/
theorem C4_witness :
    healthScore ⟨"w", [⟨"Node 1", "Code", (0, 0)⟩], []⟩ ≤ healthScore ⟨"w", [], []⟩ :=
  C4_monotone ⟨"w", [], []⟩ ⟨"Node 1", "Code", (0, 0)⟩ (by decide) (by decide)

/-- A filter over a list on which the predicate is everywhere false counts
zero elements. -/
lemma length_filter_eq_zero (p : Node → Bool) (l : List Node)
    (h : ∀ n ∈ l, p n = false) : (l.filter p).length = 0 := by
  induction l with
  | nil => rfl
  | cons m ms ih =>
    have hm := h m (by simp)
    simp only [List.filter_cons, hm]
    exact ih fun n hn => h n (by simp [hn])

/-- C6: a workflow with at most 5 nodes, no trigger/webhook-typed node
(case-insensitive), no default-named node and at most 3 Code/Function nodes
scores exactly 90 — only the no-trigger penalty applies. -/
theorem C6_small_no_trigger (w : Workflow)
    (h5 : w.nodes.length ≤ 5)
    (htrig : ∀ n ∈ w.nodes, strIncludes (lowerStr n.type) "trigger" = false
      ∧ strIncludes (lowerStr n.type) "webhook" = false)
    (hname : ∀ n ∈ w.nodes, nameMatchesDefault n.name = false)
    (hheavy : heavyCount w.nodes ≤ 3) :
    healthScore w = 90 := by
  have htC : triggerCount w.nodes = 0 :=
    length_filter_eq_zero _ _ fun n hn => by
      have := htrig n hn
      simp [isTriggerNode, this.1, this.2]
  have hdC : defaultNamedCount w.nodes = 0 :=
    length_filter_eq_zero _ _ fun n hn => by
      simp [isDefaultNamed, hname n hn]
  rw [healthScore_eq_clamp]
  have hsum : sumDeltas w = 10 := by
    simp only [sumDeltas, errorDelta, sizeDelta10, sizeDelta20, noTriggerDelta,
      manyTriggersDelta, heavyDelta, namingDelta, htC, hdC]
    have h1 : ¬ (hasErrorNodes w.nodes = false ∧ w.nodes.length > 5) :=
      fun hc => by omega
    rw [if_neg h1]
    split_ifs <;> omega
  rw [hsum]
  decide

/-- C6 witness: the empty workflow satisfies every hypothesis and scores
exactly 90. -/
theorem C6_witness : healthScore ⟨"w", [], []⟩ = 90 :=
  C6_small_no_trigger ⟨"w", [], []⟩ (by decide) (by decide) (by decide) (by decide)

/-- `any` over a list of nodes, for a predicate reading only name and type,
equals `any` over the projected (name, type) pairs. -/
lemma any_over_keys (l : List Node) (q : String × String → Bool) :
    (List.map (fun n : Node => (n.name, n.type)) l).any q
      = l.any fun n => q (n.name, n.type) := by
  induction l with
  | nil => rfl
  | cons m ms ih => simp [ih]

/-- The count of a filter reading only name and type equals the count of the
corresponding filter over the projected (name, type) pairs. -/
lemma filter_length_over_keys (l : List Node) (q : String × String → Bool) :
    ((List.map (fun n : Node => (n.name, n.type)) l).filter q).length
      = (List.filter (fun n : Node => q (n.name, n.type)) l).length := by
  induction l with
  | nil => rfl
  | cons m ms ih =>
    simp only [List.map_cons, List.filter_cons]
    cases hq : q (m.name, m.type) <;> simp [hq, ih]

/-- C8: two workflows whose node sequences agree on every name and type get
the same score, whatever their `connections`, workflow names or node
positions — the scorer reads nothing else. -/
theorem C8_connections_irrelevant (w1 w2 : Workflow)
    (h : w1.nodes.map (fun n => (n.name, n.type))
      = w2.nodes.map (fun n => (n.name, n.type))) :
    healthScore w1 = healthScore w2 := by
  have key : ∀ (q : String × String → Bool) (l1 l2 : List Node),
      List.map (fun n : Node => (n.name, n.type)) l1
          = List.map (fun n : Node => (n.name, n.type)) l2 →
      (List.filter (fun n : Node => q (n.name, n.type)) l1).length
        = (List.filter (fun n : Node => q (n.name, n.type)) l2).length := by
    intro q l1 l2 hm
    rw [← filter_length_over_keys l1 q, ← filter_length_over_keys l2 q, hm]
  have hE : hasErrorNodes w1.nodes = hasErrorNodes w2.nodes := by
    have e1 : hasErrorNodes w1.nodes
        = (List.map (fun n : Node => (n.name, n.type)) w1.nodes).any
            (fun p => strIncludes (lowerStr p.2) "error" || strIncludes p.2 "catch") :=
      (any_over_keys w1.nodes
        (fun p => strIncludes (lowerStr p.2) "error" || strIncludes p.2 "catch")).symm
    have e2 : hasErrorNodes w2.nodes
        = (List.map (fun n : Node => (n.name, n.type)) w2.nodes).any
            (fun p => strIncludes (lowerStr p.2) "error" || strIncludes p.2 "catch") :=
      (any_over_keys w2.nodes
        (fun p => strIncludes (lowerStr p.2) "error" || strIncludes p.2 "catch")).symm
    rw [e1, e2, h]
  have hT : triggerCount w1.nodes = triggerCount w2.nodes :=
    key (fun p => strIncludes (lowerStr p.2) "trigger"
      || strIncludes (lowerStr p.2) "webhook") _ _ h
  have hH : heavyCount w1.nodes = heavyCount w2.nodes :=
    key (fun p => strIncludes p.2 "Code" || strIncludes p.2 "Function") _ _ h
  have hD : defaultNamedCount w1.nodes = defaultNamedCount w2.nodes :=
    key (fun p => nameMatchesDefault p.1) _ _ h
  have hL : w1.nodes.length = w2.nodes.length := by
    have := congrArg List.length h
    simpa using this
  have hsum : sumDeltas w1 = sumDeltas w2 := by
    simp only [sumDeltas, errorDelta, sizeDelta10, sizeDelta20, noTriggerDelta,
      manyTriggersDelta, heavyDelta, namingDelta, hE, hT, hH, hD, hL]
  rw [healthScore_eq_clamp, healthScore_eq_clamp, hsum]

/-- C8 witness: two concrete workflows with the same node names and types but
different workflow names, node positions and connection maps score equally. -/
theorem C8_witness :
    healthScore ⟨"alpha", [⟨"a", "webhook", (0, 0)⟩], [("a", "b")]⟩
      = healthScore ⟨"beta", [⟨"a", "webhook", (5, 7)⟩], []⟩ :=
  C8_connections_irrelevant ⟨"alpha", [⟨"a", "webhook", (0, 0)⟩], [("a", "b")]⟩
    ⟨"beta", [⟨"a", "webhook", (5, 7)⟩], []⟩ (by decide)

/-- C9: when no node name matches the default pattern, the remaining rules
can deduct at most 20 + 5 + 10 + 10 + 5 = 50 points in total, so the score
is at least 50. -/
theorem C9_lower_bound (w : Workflow)
    (h : ∀ n ∈ w.nodes, nameMatchesDefault n.name = false) :
    50 ≤ healthScore w := by
  have hdC : defaultNamedCount w.nodes = 0 :=
    length_filter_eq_zero _ _ fun n hn => by
      simp [isDefaultNamed, h n hn]
  rw [healthScore_eq_clamp]
  have hsum : sumDeltas w ≤ 50 := by
    simp only [sumDeltas, errorDelta, sizeDelta10, sizeDelta20, noTriggerDelta,
      manyTriggersDelta, heavyDelta, namingDelta, hdC]
    split_ifs <;> omega
  omega

/-- C9 witness: a 25-node workflow of plain `"x"` types collects every fixed
penalty that can stack (−20 −5 −10 −10 = −45) and still scores 55 ≥ 50. -/
theorem C9_witness :
    50 ≤ healthScore ⟨"w", List.replicate 25 ⟨"a", "x", (0, 0)⟩, []⟩ :=
  C9_lower_bound ⟨"w", List.replicate 25 ⟨"a", "x", (0, 0)⟩, []⟩ (by decide)

/-- A node as it arrives from a parsed JSON export: `name` or `type` may be
absent. The TypeScript interface declares them as strings, but nothing in
`handleAnalyze` checks or defaults them before dereferencing. -/
structure RawNode where
  name : Option String
  type : Option String
  position : Int × Int
deriving DecidableEq

/-- A workflow whose nodes may be partially malformed. -/
structure RawWorkflow where
  name : String
  nodes : List RawNode
  connections : List (String × String)
deriving DecidableEq

/-- JavaScript `Array.prototype.some` over a predicate whose evaluation can
throw (a method call on an absent field): elements are visited in order,
stopping at the first `true`; a throw (`none`) aborts the whole call. -/
def someThrows (p : RawNode → Option Bool) : List RawNode → Option Bool
  | [] => some false
  | n :: ns =>
    match p n with
    | none => none
    | some true => some true
    | some false => someThrows p ns

/-- JavaScript `Array.prototype.filter` over a predicate whose evaluation can
throw: every element is visited in order, and a throw aborts the whole call. -/
def filterThrows (p : RawNode → Option Bool) : List RawNode → Option (List RawNode)
  | [] => some []
  | n :: ns =>
    match p n with
    | none => none
    | some b => (filterThrows p ns).map fun rest => if b then n :: rest else rest

/-- `n.type.toLowerCase().includes("error") || n.type.includes("catch")` on a
raw node: a missing `type` throws before either test runs. -/
def rawErrorTest (n : RawNode) : Option Bool :=
  n.type.map fun t => strIncludes (lowerStr t) "error" || strIncludes t "catch"

/-- The trigger/webhook test on a raw node: a missing `type` throws. -/
def rawTriggerTest (n : RawNode) : Option Bool :=
  n.type.map fun t => strIncludes (lowerStr t) "trigger" || strIncludes (lowerStr t) "webhook"

/-- The Code/Function test on a raw node: a missing `type` throws. -/
def rawHeavyTest (n : RawNode) : Option Bool :=
  n.type.map fun t => strIncludes t "Code" || strIncludes t "Function"

/-- `n.name.match(/Node \d+/)` on a raw node: a missing `name` throws. -/
def rawNameTest (n : RawNode) : Option Bool :=
  n.name.map nameMatchesDefault

/-- The scoring computation of `handleAnalyze` on a raw workflow, with the
JavaScript evaluation order preserved: `none` is the TypeError thrown when a
rule dereferences a missing `name` or `type`. -/
def rawHealthScore (w : RawWorkflow) : Option Int := do
  let hasErr ← someThrows rawErrorTest w.nodes
  let s1 : Int := if hasErr = false ∧ w.nodes.length > 5 then 100 - 20 else 100
  let s2 := if w.nodes.length > 10 then s1 - 5 else s1
  let s3 := if w.nodes.length > 20 then s2 - 10 else s2
  let triggers ← filterThrows rawTriggerTest w.nodes
  let s4 := if triggers.length = 0 then s3 - 10 else s3
  let s5 := if triggers.length > 2 then s4 - 5 else s4
  let heavy ← filterThrows rawHeavyTest w.nodes
  let s6 := if heavy.length > 3 then s5 - 5 else s5
  let named ← filterThrows rawNameTest w.nodes
  let s7 := if named.length > 0 then s6 - (named.length : Int) * 2 else s6
  pure (max 0 (min 100 s7))

/-- Modelled from the spec: the substitution the spec prescribes for a
partially malformed node — a missing `name` or `type` becomes the empty
string.  No such substitution exists anywhere in `handleAnalyze`. -/
def substituteDefaults (w : RawWorkflow) : Workflow :=
  ⟨w.name, w.nodes.map fun n => ⟨n.name.getD "", n.type.getD "", n.position⟩,
    w.connections⟩

/-- A filter whose predicate throws on some listed element throws. -/
lemma filterThrows_none (p : RawNode → Option Bool) (l : List RawNode)
    (h : ∃ n ∈ l, p n = none) : filterThrows p l = none := by
  induction l with
  | nil => simp at h
  | cons m ms ih =>
    rcases h with ⟨n, hmem, hpn⟩
    rcases List.mem_cons.mp hmem with rfl | htail
    · simp [filterThrows, hpn]
    · cases hp : p m with
      | none => simp [filterThrows, hp]
      | some b => simp [filterThrows, hp, ih ⟨n, htail, hpn⟩]

/-- C7 counterexample: a workflow with one node lacking its `type` makes the
scoring throw (`none`) rather than complete; under the substitution the spec
prescribes it would have completed with score 90. -/
theorem C7_counterexample :
    rawHealthScore ⟨"w", [⟨some "a", none, (0, 0)⟩], []⟩ = none
      ∧ healthScore (substituteDefaults ⟨"w", [⟨some "a", none, (0, 0)⟩], []⟩) = 90 := by
  decide

/-- C7 (amended): whenever any node of a workflow lacks its `name` or its
`type`, the scoring computation dereferences the missing field and throws —
the analysis aborts instead of substituting an empty string. -/
theorem C7_missing_field_aborts (w : RawWorkflow)
    (h : ∃ n ∈ w.nodes, n.name = none ∨ n.type = none) :
    rawHealthScore w = none := by
  rcases h with ⟨n, hmem, hfield⟩
  rcases hfield with hn | ht
  · have hname : filterThrows rawNameTest w.nodes = none :=
      filterThrows_none _ _ ⟨n, hmem, by simp [rawNameTest, hn]⟩
    cases hE : someThrows rawErrorTest w.nodes <;>
      cases hT : filterThrows rawTriggerTest w.nodes <;>
        cases hH : filterThrows rawHeavyTest w.nodes <;>
          simp [rawHealthScore, hE, hT, hH, hname]
  · have htrig : filterThrows rawTriggerTest w.nodes = none :=
      filterThrows_none _ _ ⟨n, hmem, by simp [rawTriggerTest, ht]⟩
    cases hE : someThrows rawErrorTest w.nodes <;>
      simp [rawHealthScore, hE, htrig]

/-- C7 witness: the one-bad-node workflow of the counterexample satisfies the
amended statement — its scoring run throws. -/
theorem C7_witness :
    rawHealthScore ⟨"w", [⟨none, some "x", (0, 0)⟩], []⟩ = none :=
  C7_missing_field_aborts ⟨"w", [⟨none, some "x", (0, 0)⟩], []⟩
    ⟨⟨none, some "x", (0, 0)⟩, by decide, Or.inl rfl⟩

/-- `defaultNameAt` holds exactly of lists opening with `N`, `o`, `d`, `e`,
a space, and a decimal digit. -/
lemma defaultNameAt_iff (xs : List Char) :
    defaultNameAt xs = true ↔
      ∃ c r, xs = 'N' :: 'o' :: 'd' :: 'e' :: ' ' :: c :: r ∧ c.isDigit = true := by
  rcases xs with _ | ⟨a, _ | ⟨b, _ | ⟨c0, _ | ⟨d, _ | ⟨e, _ | ⟨f, r⟩⟩⟩⟩⟩⟩ <;>
    simp [defaultNameAt, List.cons.injEq, and_assoc]

/-- `hasDefaultName` holds exactly of lists containing `N`, `o`, `d`, `e`,
a space, then a decimal digit, at any position. -/
lemma hasDefaultName_iff (xs : List Char) :
    hasDefaultName xs = true ↔
      ∃ l c r, xs = l ++ 'N' :: 'o' :: 'd' :: 'e' :: ' ' :: c :: r
        ∧ c.isDigit = true := by
  induction xs with
  | nil =>
    simp [hasDefaultName]
  | cons x t ih =>
    simp only [hasDefaultName, Bool.or_eq_true, defaultNameAt_iff, ih]
    constructor
    · rintro (⟨c, r, hx, hd⟩ | ⟨l, c, r, hx, hd⟩)
      · exact ⟨[], c, r, by simp [hx], hd⟩
      · exact ⟨x :: l, c, r, by simp [hx], hd⟩
    · rintro ⟨l, c, r, hx, hd⟩
      cases l with
      | nil => exact Or.inl ⟨c, r, by simpa using hx, hd⟩
      | cons y l' =>
        simp only [List.cons_append, List.cons.injEq] at hx
        exact Or.inr ⟨l', c, r, hx.2, hd⟩

/-- C10: the default-naming check is an unanchored case-sensitive search for
the literal characters `Node`, a space, then at least one digit: a name
matches exactly when it contains that pattern at some position, so
`"MyNode 42 copy"` incurs the −2 (score 98 on a one-node webhook workflow
instead of 100), while `"Node1"` and `"node 3"` incur nothing. -/
theorem C10_default_name_regex :
    (∀ s : String, nameMatchesDefault s = true ↔
      ∃ l c r, s.data = l ++ 'N' :: 'o' :: 'd' :: 'e' :: ' ' :: c :: r
        ∧ c.isDigit = true)
    ∧ nameMatchesDefault "MyNode 42 copy" = true
    ∧ nameMatchesDefault "Node1" = false
    ∧ nameMatchesDefault "node 3" = false
    ∧ healthScore ⟨"w", [⟨"MyNode 42 copy", "webhook", (0, 0)⟩], []⟩ = 98
    ∧ healthScore ⟨"w", [⟨"Node1", "webhook", (0, 0)⟩], []⟩ = 100 := by
  refine ⟨fun s => hasDefaultName_iff s.data, by decide, by decide, by decide,
    by decide, by decide⟩

end WorkflowDoctor
